import Mathlib

/-!
Shallow embedding of the ByteWeaver core (pattern scanner, patch apply/restore,
modification manager, address entry resolver) together with proofs settling the
frozen specification claims.  Machine addresses and sizes are modelled as `Nat`
with explicit `% 2 ^ 64` where the C++ `uintptr_t`/`size_t` arithmetic can wrap.
Memory is a total function from addresses to byte values.  OS facilities
(`VirtualProtect` success, hardware faults, export lookup, module scan results)
are passed in explicitly as boolean flags or oracle environments, mirroring the
branch structure of the source.
-/

namespace ByteWeaverProof

/-- Size of the `uintptr_t` / `size_t` value space on the 64-bit target. -/
def uintptrMod : Nat := 2 ^ 64

/-- The `size_t` value of `-1`, used by `FindSignature` as a skip-count sentinel. -/
def usizeMax : Nat := 2 ^ 64 - 1

/-! ## Pattern scanner (`AddressScanner.cpp`)

`ParsePattern` splits its input on commas with `std::getline`, maps `?`/`??` to
a wildcard and hands every other token to `std::stoul(tok, nullptr, 16)`, whose
result is truncated to `uint8_t`.  `std::stoul` parses the longest leading run
of hexadecimal digits; it throws `std::invalid_argument` when there is none and
`std::out_of_range` when the run's value exceeds `unsigned long`
(`ULONG_MAX = 2^32 - 1` on the MSVC/Windows target this code compiles for).
The function body installs no handler, so either exception propagates to the
caller.  We model a thrown exception as `Except.error ()`.  (The model covers
tokens without leading whitespace, sign or `0x` prefix, which is the token
shape every call site in the repository uses.) -/

/-- Numeric value of one hexadecimal digit, `none` for a non-digit. -/
def hexVal (c : Char) : Option Nat :=
  if '0' ≤ c ∧ c ≤ '9' then some (c.toNat - 48)
  else if 'a' ≤ c ∧ c ≤ 'f' then some (c.toNat - 87)
  else if 'A' ≤ c ∧ c ≤ 'F' then some (c.toNat - 55)
  else none

/-- Accumulate a base-16 digit string into a number, as `std::stoul` does. -/
def hexFold (ds : List Char) : Nat :=
  ds.foldl (fun acc c => acc * 16 + (hexVal c).getD 0) 0

/-- Largest value of the target's `unsigned long` (32-bit on MSVC/Windows),
the range `std::stoul` enforces. -/
def ulongMax : Nat := 2 ^ 32 - 1

/-- Model of `std::stoul(tok, nullptr, 16)`: parse the longest leading run of
hex digits; `none` models the throws — `std::invalid_argument` when no digit
can be consumed, and `std::out_of_range` when the run's value exceeds
`unsigned long`. -/
def stoulHex (cs : List Char) : Option Nat :=
  let ds := cs.takeWhile (fun c => (hexVal c).isSome)
  if ds.isEmpty then none
  else if ulongMax < hexFold ds then none
  else some (hexFold ds)

/-- Comma split underlying the `std::getline(iss, byteStr, ',')` loop: split the
character list at every comma, keeping empty pieces. -/
def splitOnComma : List Char → List (List Char)
  | [] => [[]]
  | c :: rest =>
    if c = ',' then [] :: splitOnComma rest
    else
      match splitOnComma rest with
      | [] => [[c]]
      | t :: ts => (c :: t) :: ts

/-- Token sequence produced by the `getline` loop: on an empty stream no token
is read, and a trailing empty piece (input ending in a comma) is not yielded
because the final `getline` hits end-of-stream having extracted nothing. -/
def getlineTokens (s : List Char) : List (List Char) :=
  if s.isEmpty then []
  else
    let ts := splitOnComma s
    if ts.getLast? = some [] then ts.dropLast else ts

/-- One loop iteration of `ParsePattern` on a single token: wildcard for `?` or
`??`, otherwise `std::stoul` base 16 truncated to a byte; `Except.error ()`
models the uncaught `std::invalid_argument`. -/
def parseToken (t : List Char) : Except Unit (Option Nat) :=
  if t = ['?'] ∨ t = ['?', '?'] then Except.ok none
  else
    match stoulHex t with
    | none => Except.error ()
    | some v => Except.ok (some (v % 256))

/-- `AddressScanner::ParsePattern`, with `Except.error ()` standing for the
exception that escapes the function on a token `std::stoul` cannot start
parsing. -/
def parsePattern (s : List Char) : Except Unit (List (Option Nat)) :=
  (getlineTokens s).mapM parseToken

/-- Inner loop of `FindSignature`: a candidate offset `i` matches when every
non-wildcard pattern byte equals the corresponding buffer byte.  All reads are
in bounds whenever `i + pattern.length ≤ buffer.length`. -/
def sigMatchAt (buf : List Nat) (pat : List (Option Nat)) (i : Nat) : Bool :=
  (List.range pat.length).all fun j =>
    match pat.getD j none with
    | none => true
    | some b => buf.getD (i + j) 0 == b

/-- Outer loop of `FindSignature`, translated to recursion over the candidate
offsets.  The source returns immediately at a match when `skipCount == -1`
(the `size_t` sentinel `usizeMax`) or when enough matches have been skipped. -/
def findSigLoop (buf : List Nat) (pat : List (Option Nat)) (skip : Nat) :
    List Nat → Nat → Option Nat
  | [], _ => none
  | i :: rest, found =>
    if sigMatchAt buf pat i then
      if skip ≠ usizeMax ∧ found < skip then findSigLoop buf pat skip rest (found + 1)
      else some i
    else findSigLoop buf pat skip rest found

/-- `AddressScanner::FindSignature` over a readable buffer `buf` mapped at
address `base`: offsets `0 ≤ i ≤ size - patternSize` are scanned in increasing
order (the loop condition is `i <= size - patternSize`, inclusive), and the
address `&base[i]` of the selected match is returned.  The model assumes
`pat.length ≤ buf.length`; in the source a longer pattern underflows the
`size_t` bound and faults into the `__except` handler. -/
def findSignature (base : Nat) (buf : List Nat) (pat : List (Option Nat))
    (skip : Nat) : Option Nat :=
  (findSigLoop buf pat skip (List.range (buf.length - pat.length + 1)) 0).map
    fun i => base + i

/-- All matching offsets, in increasing order, over the scanned range. -/
def sigMatchOffsets (buf : List Nat) (pat : List (Option Nat)) : List Nat :=
  (List.range (buf.length - pat.length + 1)).filter (sigMatchAt buf pat)

/-! ## Patch (`WinPatch.cpp`, current generation)

`Patch::Apply` refuses a null target, aborts with `false` when
`VirtualProtect` fails, then snapshots the original bytes and writes the patch
bytes inside a fault guard.  `Patch::Restore` is a no-op success when not
modified; its `VirtualProtect` failure branch only logs — it lacks a
`return false` (unlike `Apply`, and unlike the first generation of the file),
so execution proceeds into the write.  The boolean parameters `vpOk` and
`fault` stand for the `VirtualProtect` outcome and for a hardware fault caught
by the `__except` handler. -/

/-- Byte-addressed process memory. -/
def Mem : Type := Nat → Nat

/-- Read `n` bytes starting at address `a` (the first `memcpy` source range). -/
def readBytes (mem : Mem) (a n : Nat) : List Nat :=
  (List.range n).map fun i => mem (a + i)

/-- Write the byte list `bs` starting at address `a`, as `memcpy` does. -/
def writeBytes (mem : Mem) (a : Nat) (bs : List Nat) : Mem :=
  fun x => if a ≤ x ∧ x < a + bs.length then bs.getD (x - a) 0 else mem x

/-- State of one `Patch` object (fields of `MemoryModification` plus
`PatchBytes`). -/
structure Patch where
  TargetAddress : Nat
  Size : Nat
  PatchBytes : List Nat
  OriginalBytes : List Nat
  IsModified : Bool
  Key : String
  GroupID : Nat
deriving DecidableEq

/-- The `Patch` constructor: `Size` is the patch-byte count, `OriginalBytes` is
resized (zero-filled) to `Size`, and the patch starts unapplied. -/
def mkPatch (patchAddress : Nat) (patchBytes : List Nat) : Patch :=
  { TargetAddress := patchAddress
    Size := patchBytes.length
    PatchBytes := patchBytes
    OriginalBytes := List.replicate patchBytes.length 0
    IsModified := false
    Key := ""
    GroupID := 0 }

/-- `Patch::Apply`.  Returns the updated patch object, the updated memory and
the boolean result.  A caught fault is modelled as leaving memory unchanged. -/
def applyPatch (p : Patch) (mem : Mem) (vpOk fault : Bool) : Patch × Mem × Bool :=
  if p.IsModified then (p, mem, true)
  else if p.TargetAddress = 0 then (p, mem, false)
  else if !vpOk then (p, mem, false)
  else if fault then (p, mem, false)
  else
    ({ p with OriginalBytes := readBytes mem p.TargetAddress p.Size, IsModified := true },
     writeBytes mem p.TargetAddress (p.PatchBytes.take p.Size), true)

/-- `Patch::Restore`.  Note the faithful quirk: when `VirtualProtect` fails the
source only logs (`vpOk` has no effect on control flow) and the write still
happens, `IsModified` is cleared and `true` is returned. -/
def restorePatch (p : Patch) (mem : Mem) (_vpOk fault : Bool) : Patch × Mem × Bool :=
  if !p.IsModified then (p, mem, true)
  else if fault then (p, mem, false)
  else
    ({ p with IsModified := false },
     writeBytes mem p.TargetAddress (p.OriginalBytes.take p.Size), true)

/-! ## Modification manager (`MemoryManager.cpp`, current generation)

The registry `Mods` is a `std::map` from string key to modification, iterated
in key order; we model it as a key-sorted association list of `Patch` objects
(the concrete modification embedded here) and thread the process memory
through the per-item `Apply`/`Restore` calls. -/

/-- `Mods.find(key)` on the association-list registry. -/
def lookupMod : List (String × Patch) → String → Option Patch
  | [], _ => none
  | (k', p) :: rest, k => if k' = k then some p else lookupMod rest k

/-- `Mods.emplace(key, hMod)` keeping the `std::map` key order. -/
def insertMod : List (String × Patch) → String → Patch → List (String × Patch)
  | [], k, p => [(k, p)]
  | (k', p') :: rest, k, p =>
    if k < k' then (k, p) :: (k', p') :: rest
    else (k', p') :: insertMod rest k p

/-- Replace the value stored under `k` (used after a keyed `Apply`/`Restore`
mutates the shared modification object). -/
def setMod : List (String × Patch) → String → Patch → List (String × Patch)
  | [], _, _ => []
  | (k', p') :: rest, k, p =>
    if k' = k then (k, p) :: rest else (k', p') :: setMod rest k p

/-- `MemoryManager::AddMod`: when the key is free the modification's `Key` and
`GroupID` fields are assigned and it is inserted, returning `true`; when the
key is occupied nothing at all happens and `false` is returned. -/
def addMod (mods : List (String × Patch)) (k : String) (p : Patch) (gid : Nat) :
    List (String × Patch) × Bool :=
  if (lookupMod mods k).isSome then (mods, false)
  else (insertMod mods k { p with Key := k, GroupID := gid }, true)

/-- `MemoryManager::EraseMod`: remove the key, reporting whether it existed. -/
def eraseMod : List (String × Patch) → String → List (String × Patch) × Bool
  | [], _ => ([], false)
  | (k', p') :: rest, k =>
    if k' = k then (rest, true)
    else
      let r := eraseMod rest k
      ((k', p') :: r.1, r.2)

/-- `MemoryManager::ApplyMod`: looks the modification up, calls `Apply()` on it
— and discards that result, falling through to `return false`. -/
def applyMod (mods : List (String × Patch)) (mem : Mem) (k : String)
    (vpOk fault : Bool) : List (String × Patch) × Mem × Bool :=
  match lookupMod mods k with
  | some p =>
    let r := applyPatch p mem vpOk fault
    (setMod mods k r.1, r.2.1, false)
  | none => (mods, mem, false)

/-- `MemoryManager::RestoreMod`: same shape as `applyMod`, the `Restore()`
result is discarded and `false` is returned on every path. -/
def restoreMod (mods : List (String × Patch)) (mem : Mem) (k : String)
    (vpOk fault : Bool) : List (String × Patch) × Mem × Bool :=
  match lookupMod mods k with
  | some p =>
    let r := restorePatch p mem vpOk fault
    (setMod mods k r.1, r.2.1, false)
  | none => (mods, mem, false)

/-- `MemoryManager::RestoreAndEraseMod`: `a = RestoreMod(key); b = EraseMod(key);
return a & b;`. -/
def restoreAndEraseMod (mods : List (String × Patch)) (mem : Mem) (k : String)
    (vpOk fault : Bool) : List (String × Patch) × Mem × Bool :=
  let a := restoreMod mods mem k vpOk fault
  let b := eraseMod a.1 k
  (b.1, a.2.1, a.2.2 && b.2)

/-- `MemoryManager::ApplyAllMods`: `std::ranges::all_of` over the registry
values in key order.  `all_of` stops at the first `false`, so modifications
after a failed one are not visited. -/
def applyAllMods (mods : List (String × Patch)) (mem : Mem) (vpOk fault : Bool) :
    List (String × Patch) × Mem × Bool :=
  match mods with
  | [] => ([], mem, true)
  | (k, p) :: rest =>
    let r := applyPatch p mem vpOk fault
    if r.2.2 then
      let rr := applyAllMods rest r.2.1 vpOk fault
      ((k, r.1) :: rr.1, rr.2.1, rr.2.2)
    else ((k, r.1) :: rest, r.2.1, false)

/-- `MemoryManager::ApplyByGroupID`: `all_of` with non-matching items counted
as vacuous successes; again short-circuiting at the first failure. -/
def applyByGroupID (mods : List (String × Patch)) (mem : Mem) (gid : Nat)
    (vpOk fault : Bool) : List (String × Patch) × Mem × Bool :=
  match mods with
  | [] => ([], mem, true)
  | (k, p) :: rest =>
    if p.GroupID = gid then
      let r := applyPatch p mem vpOk fault
      if r.2.2 then
        let rr := applyByGroupID rest r.2.1 gid vpOk fault
        ((k, r.1) :: rr.1, rr.2.1, rr.2.2)
      else ((k, r.1) :: rest, r.2.1, false)
    else
      let rr := applyByGroupID rest mem gid vpOk fault
      ((k, p) :: rr.1, rr.2.1, rr.2.2)

/-- Spec-side comparison point for `ApplyAllMods`, following the spec's words:
every item is processed even after a failure and the results are AND-ed. -/
def applyAllModsSpec (mods : List (String × Patch)) (mem : Mem) (vpOk fault : Bool) :
    List (String × Patch) × Mem × Bool :=
  match mods with
  | [] => ([], mem, true)
  | (k, p) :: rest =>
    let r := applyPatch p mem vpOk fault
    let rr := applyAllModsSpec rest r.2.1 vpOk fault
    ((k, r.1) :: rr.1, rr.2.1, r.2.2 && rr.2.2)

/-- Spec-side comparison point for `ApplyByGroupID` (process every matching
item, AND the results). -/
def applyByGroupIDSpec (mods : List (String × Patch)) (mem : Mem) (gid : Nat)
    (vpOk fault : Bool) : List (String × Patch) × Mem × Bool :=
  match mods with
  | [] => ([], mem, true)
  | (k, p) :: rest =>
    if p.GroupID = gid then
      let r := applyPatch p mem vpOk fault
      let rr := applyByGroupIDSpec rest r.2.1 gid vpOk fault
      ((k, r.1) :: rr.1, rr.2.1, r.2.2 && rr.2.2)
    else
      let rr := applyByGroupIDSpec rest mem gid vpOk fault
      ((k, p) :: rr.1, rr.2.1, rr.2.2)

/-- Key-collecting loop of `MemoryManager::IsLocationModified`: for every
currently modified entry, the half-open ranges are compared with the wrapping
`uintptr_t` arithmetic of the source (`endAddress` is precomputed by the
caller). -/
def islmKeys (mods : List (String × Patch)) (address endAddress : Nat) :
    List String :=
  match mods with
  | [] => []
  | (k, m) :: rest =>
    if m.IsModified then
      if address < (m.TargetAddress + m.Size) % uintptrMod ∧
          m.TargetAddress < endAddress then
        k :: islmKeys rest address endAddress
      else islmKeys rest address endAddress
    else islmKeys rest address endAddress

/-- `MemoryManager::IsLocationModified(address, length, detectedKeys)`: appends
the keys of overlapping modified entries to the caller's vector and returns
whether that vector ends up non-empty. -/
def isLocationModified (mods : List (String × Patch)) (address length : Nat)
    (detectedKeys : List String) : List String × Bool :=
  let endAddress := (address + length) % uintptrMod
  let ks := detectedKeys ++ islmKeys mods address endAddress
  (ks, !ks.isEmpty)

/-- Mathematical half-open-interval overlap used by the spec: some address lies
in both `[a, a + l)` and `[t, t + s)`. -/
def rangesOverlap (a l t s : Nat) : Prop :=
  ∃ x, a ≤ x ∧ x < a + l ∧ t ≤ x ∧ x < t + s

/-! ## AddressEntry (`ByteWeaver.cpp`, current generation)

`Update` picks exactly one strategy — export lookup when flagged, else
pattern scan when a pattern is set, else cached module base plus known offset,
else module-name resolution plus known offset — and never falls through on
failure.  `Verify` is `const`; its branch order differs from `Update`: the
base-plus-offset test comes first and immediately returns `true`.  External
lookups are supplied by a `ResolveEnv` oracle, and `update` also reports which
oracle calls it performed. -/

/-- Cached state of one `AddressEntry` (the `_ScanBytes` field holds the parsed
pattern when one was set). -/
structure AddressEntry where
  SymbolName : String
  ModuleName : String
  IsSymbolExport : Bool
  KnownOffset : Option Nat
  ScanBytes : Option (List (Option Nat))
  ModuleAddress : Nat
  TargetAddress : Nat
deriving DecidableEq

/-- Oracle results for the three external resolution facilities.  Each triple
is `(module base, found address, offset)`. -/
structure ResolveEnv where
  exportLookup : Option (Nat × Nat × Nat)
  moduleSearch : Option (Nat × Nat × Nat)
  moduleHandle : Option Nat
deriving DecidableEq

/-- Kinds of external calls `Update` can make, recorded for the
zero-scan/zero-export accounting of the resolver-precedence claim. -/
inductive ResolveCall where
  | exportLookup
  | patternScan
  | getModuleHandle
deriving DecidableEq

/-- `AddressEntry::Update`: returns the mutated entry, the resolution result
and the list of external calls performed, in order. -/
def updateEntry (e : AddressEntry) (env : ResolveEnv) :
    AddressEntry × Option Nat × List ResolveCall :=
  if e.IsSymbolExport then
    match env.exportLookup with
    | some r =>
      ({ e with ModuleAddress := r.1, TargetAddress := r.2.1, KnownOffset := some r.2.2 },
       some r.2.1, [ResolveCall.exportLookup])
    | none => (e, none, [ResolveCall.exportLookup])
  else if e.ScanBytes.isSome then
    match env.moduleSearch with
    | some r =>
      ({ e with ModuleAddress := r.1, TargetAddress := r.2.1, KnownOffset := some r.2.2 },
       some r.2.1, [ResolveCall.patternScan])
    | none => (e, none, [ResolveCall.patternScan])
  else if 0 < e.ModuleAddress ∧ 0 < e.KnownOffset.getD 0 then
    ({ e with TargetAddress := (e.ModuleAddress + e.KnownOffset.getD 0) % uintptrMod },
     some ((e.ModuleAddress + e.KnownOffset.getD 0) % uintptrMod), [])
  else if e.ModuleName ≠ "" ∧ 0 < e.KnownOffset.getD 0 then
    match env.moduleHandle with
    | some h =>
      ({ e with ModuleAddress := h, TargetAddress := (h + e.KnownOffset.getD 0) % uintptrMod },
       some ((h + e.KnownOffset.getD 0) % uintptrMod), [ResolveCall.getModuleHandle])
    | none => (e, none, [ResolveCall.getModuleHandle])
  else (e, none, [])

/-- `AddressEntry::Verify` (the `const` member): the module-base-plus-offset
test comes first and returns `true` outright; otherwise an export or pattern
re-derivation feeds the final comparison against the cached target, with a
nonzero cached target accepted when no strategy produced an address. -/
def verifyEntry (e : AddressEntry) (env : ResolveEnv) : Bool :=
  if 0 < e.ModuleAddress ∧ 0 < e.KnownOffset.getD 0 then true
  else
    let step : Except Bool Nat :=
      if e.IsSymbolExport then
        match env.exportLookup with
        | none => Except.error false
        | some r => Except.ok r.2.1
      else if e.ScanBytes.isSome then
        match env.moduleSearch with
        | none => Except.error false
        | some r => Except.ok r.2.1
      else Except.ok 0
    match step with
    | Except.error b => b
    | Except.ok newAddress =>
      if newAddress ≠ 0 then decide (newAddress = e.TargetAddress)
      else if e.TargetAddress ≠ 0 then true
      else false

/-! ## Spec-side helpers and concrete instances used by the claim theorems -/

/-- Well-formed pattern token: a wildcard, or a non-empty all-hex-digit token
whose value fits in the target's `unsigned long` (so `std::stoul` neither
rejects it nor overflows on it). -/
def wfToken (t : List Char) : Prop :=
  t = ['?'] ∨ t = ['?', '?'] ∨
    (t ≠ [] ∧ (∀ c ∈ t, (hexVal c).isSome = true) ∧ hexFold t ≤ ulongMax)

instance : DecidablePred wfToken := fun t => by
  unfold wfToken
  infer_instance

/-- Intended value of a well-formed token: wildcard, or its hex value as a
byte. -/
def tokenValue (t : List Char) : Option Nat :=
  if t = ['?'] ∨ t = ['?', '?'] then none else some (hexFold t % 256)

/-- Join a token list with commas (inverse of the `getline` split on
well-formed inputs). -/
def renderPattern : List (List Char) → List Char
  | [] => []
  | [t] => t
  | t :: rest => t ++ ',' :: renderPattern rest

/-- Patch used for the restore-after-protection-failure evaluation: applied
(`IsModified = true`), one byte at `0x1000`, original byte `0x55`. -/
def patchC3 : Patch := ⟨4096, 1, [170], [85], true, "k", 0⟩

/-- Same patch in its unapplied state, for the apply-side evaluation. -/
def patchC3u : Patch := { patchC3 with IsModified := false }

/-- Concrete memory whose every byte is `0x99`. -/
def memC3 : Mem := fun _ => 153

/-- An active (applied) modification occupying key `"k"`. -/
def oldModC2 : Patch := ⟨4096, 1, [170], [85], true, "k", 0⟩

/-- A freshly constructed patch a caller tries to register under the occupied
key. -/
def newModC2 : Patch := mkPatch 8192 [187]

/-- Registry whose key `"k"` is occupied by the active `oldModC2`. -/
def modsC2 : List (String × Patch) := [("k", oldModC2)]

/-- A patch whose `Apply` fails (null target address). -/
def badModC5 : Patch := ⟨0, 1, [170], [0], false, "a", 0⟩

/-- A patch whose `Apply` would succeed. -/
def goodModC5 : Patch := ⟨4096, 1, [187], [0], false, "b", 0⟩

/-- Registry holding the failing patch before the succeeding one in key
order. -/
def modsC5 : List (String × Patch) := [("a", badModC5), ("b", goodModC5)]

/-- Concrete all-zero memory. -/
def memC5 : Mem := fun _ => 0

/-- Entry resolved via module base + known offset whose cached target is stale
(`0x9999` instead of `0x1000 + 0x10`). -/
def entryC4 : AddressEntry := ⟨"sym", "mod.dll", false, some 16, none, 4096, 39321⟩

/-- Export-flagged entry that also has a cached base and offset; `Update`'s
precedence would consult the export table for it. -/
def entryC4x : AddressEntry := ⟨"sym", "mod.dll", true, some 16, none, 4096, 4112⟩

/-- Oracle with every external lookup failing. -/
def envC4 : ResolveEnv := ⟨none, none, none⟩

/-- Entry witnessing `verifyEntry`'s export-comparison path. -/
def entryC4w : AddressEntry := ⟨"sym", "mod.dll", false, some 16, none, 4096, 0⟩

/-- Applied 16-byte modification at `[0x1000, 0x1010)` under key `"k1"`. -/
def modC6 : Patch :=
  ⟨4096, 16, List.replicate 16 0, List.replicate 16 0, true, "k1", 0⟩

/-- Registry holding only `modC6`. -/
def modsC6 : List (String × Patch) := [("k1", modC6)]

/-- Freshly constructed two-byte patch at `0x1000`. -/
def patchC1 : Patch := mkPatch 4096 [170, 187]

/-- Concrete memory with distinguishable bytes. -/
def memC1 : Mem := fun a => a % 256

/-- Entry configured with both a cached module base and a known offset, no
export flag, no pattern. -/
def entryC9 : AddressEntry := ⟨"sym", "mod.dll", false, some 16, none, 4096, 0⟩

/-- Oracle in which every external facility would succeed, to show none is
consulted. -/
def envC9 : ResolveEnv := ⟨some (1, 2, 3), some (4, 5, 6), some 7⟩

/-- Export-flagged entry that also has a base, an offset and a pattern
cached. -/
def entryC9x : AddressEntry := ⟨"sym", "mod.dll", true, some 16, some [some 72], 4096, 0⟩

/-- Oracle whose export lookup and module search fail. -/
def envC9fail : ResolveEnv := ⟨none, none, some 7⟩

/-- Pattern-configured entry that also has a usable base and offset cached. -/
def entryC9p : AddressEntry := ⟨"sym", "mod.dll", false, some 16, some [some 72], 4096, 0⟩

/-! ## Helper lemmas -/

/-- `all_of`-style and process-everything-style iteration agree on the returned
boolean for `ApplyAllMods` (a failed `Apply` leaves memory unchanged, so the
executed prefixes coincide). -/
theorem applyAllMods_bool_eq (mods : List (String × Patch)) :
    ∀ (mem : Mem) (vpOk fault : Bool),
      (applyAllMods mods mem vpOk fault).2.2 =
        (applyAllModsSpec mods mem vpOk fault).2.2 := by
  induction mods with
  | nil => intro mem vv ff; rfl
  | cons kp rest ih =>
    intro mem vv ff
    obtain ⟨k, p⟩ := kp
    by_cases h : (applyPatch p mem vv ff).2.2 = true
    · simp [applyAllMods, applyAllModsSpec, h, ih]
    · have h' : (applyPatch p mem vv ff).2.2 = false := by
        cases hb : (applyPatch p mem vv ff).2.2
        · rfl
        · exact absurd hb h
      simp [applyAllMods, applyAllModsSpec, h']

/-- Same boolean agreement for the group-filtered bulk operation. -/
theorem applyByGroupID_bool_eq (mods : List (String × Patch)) :
    ∀ (mem : Mem) (gid : Nat) (vpOk fault : Bool),
      (applyByGroupID mods mem gid vpOk fault).2.2 =
        (applyByGroupIDSpec mods mem gid vpOk fault).2.2 := by
  induction mods with
  | nil => intro mem gid vv ff; rfl
  | cons kp rest ih =>
    intro mem gid vv ff
    obtain ⟨k, p⟩ := kp
    by_cases hg : p.GroupID = gid
    · by_cases h : (applyPatch p mem vv ff).2.2 = true
      · simp [applyByGroupID, applyByGroupIDSpec, hg, h, ih]
      · have h' : (applyPatch p mem vv ff).2.2 = false := by
          cases hb : (applyPatch p mem vv ff).2.2
          · rfl
          · exact absurd hb h
        simp [applyByGroupID, applyByGroupIDSpec, hg, h']
    · simp [applyByGroupID, applyByGroupIDSpec, hg, ih]

/-! ## Claim theorems -/

/-- C10: the keyed manager operations `ApplyMod` and `RestoreMod` return
`false` on every path — the underlying `Apply()`/`Restore()` result is
discarded — and `RestoreAndEraseMod`, the conjunction of `RestoreMod` and
`EraseMod`, therefore never returns `true`. -/
theorem keyed_ops_return_false (mods : List (String × Patch)) (mem : Mem)
    (k : String) (vpOk fault : Bool) :
    (applyMod mods mem k vpOk fault).2.2 = false ∧
    (restoreMod mods mem k vpOk fault).2.2 = false ∧
    (restoreAndEraseMod mods mem k vpOk fault).2.2 = false := by
  have ha : (applyMod mods mem k vpOk fault).2.2 = false := by
    cases h : lookupMod mods k <;> simp [applyMod, h]
  have hr : (restoreMod mods mem k vpOk fault).2.2 = false := by
    cases h : lookupMod mods k <;> simp [restoreMod, h]
  exact ⟨ha, hr, by simp [restoreAndEraseMod, hr]⟩

/-- C3: evaluation of `Patch::Restore` at a state whose `VirtualProtect` call
fails.  The claim requires an aborted restore (no write, `is_modified` still
`true`, result `false`); the code instead writes the original byte back,
clears `IsModified` and returns `true`, because the failure branch lacks a
`return false`.  The last conjunct shows `Apply` under the same failure does
abort with no partial state, as the claim demands. -/
theorem patch_protectFail_divergence :
    (restorePatch patchC3 memC3 false false).2.2 = true ∧
    (restorePatch patchC3 memC3 false false).1.IsModified = false ∧
    (restorePatch patchC3 memC3 false false).2.1 4096 = 85 ∧
    memC3 4096 = 153 ∧
    applyPatch patchC3u memC3 false false = (patchC3u, memC3, false) :=
  ⟨by decide, by decide, rfl, rfl, rfl⟩

/-- C2 counterexample: registering under the occupied key `"k"` leaves the
registry unchanged, returns `false`, keeps the old occupant applied
(`IsModified = true`) and does not register the new modification — contrary to
the claimed replace-and-restore behaviour. -/
theorem addMod_occupied_counterexample :
    addMod modsC2 "k" newModC2 0 = (modsC2, false) ∧
    (lookupMod (addMod modsC2 "k" newModC2 0).1 "k").map Patch.IsModified = some true ∧
    newModC2.IsModified = false :=
  ⟨by decide, by decide, by decide⟩

/-- C2 (amended): `AddMod` on a key that is already occupied fails — it
returns `false` and leaves the registry (including the prior occupant and its
`IsModified` state) completely unchanged. -/
theorem addMod_occupied_rejects (mods : List (String × Patch)) (k : String)
    (p : Patch) (gid : Nat) (h : (lookupMod mods k).isSome = true) :
    addMod mods k p gid = (mods, false) := by
  simp [addMod, h]

/-- Witness for `addMod_occupied_rejects` at the concrete occupied registry. -/
theorem addMod_occupied_rejects_witness :
    (lookupMod modsC2 "k").isSome = true ∧
    addMod modsC2 "k" newModC2 0 = (modsC2, false) :=
  ⟨by decide, addMod_occupied_rejects modsC2 "k" newModC2 0 (by decide)⟩

/-- C5 counterexample: with the failing patch `"a"` ordered before the
would-succeed patch `"b"`, `ApplyAllMods` returns `false` but leaves the
registry — in particular `"b"` — completely untouched (`IsModified` still
`false`), even though `"b"`'s own `Apply` would have succeeded: the
`std::ranges::all_of` iteration stops at the first failure instead of
processing the remaining items. -/
theorem applyAllMods_shortCircuit_counterexample :
    (applyAllMods modsC5 memC5 true false).2.2 = false ∧
    (applyAllMods modsC5 memC5 true false).1 = modsC5 ∧
    (lookupMod (applyAllMods modsC5 memC5 true false).1 "b").map Patch.IsModified
      = some false ∧
    (applyPatch goodModC5 memC5 true false).2.2 = true ∧
    (applyPatch goodModC5 memC5 true false).1.IsModified = true :=
  ⟨by decide, rfl, by decide, by decide, by decide⟩

/-- C5 (amended): the bulk operations return `true` iff every matching item
reports success — their boolean result equals that of a
process-every-item-and-AND iteration — but they stop processing at the first
failing item (shown by the counterexample). -/
theorem bulk_bool_eq_processEvery (mods : List (String × Patch)) (mem : Mem)
    (gid : Nat) (vpOk fault : Bool) :
    (applyAllMods mods mem vpOk fault).2.2 =
      (applyAllModsSpec mods mem vpOk fault).2.2 ∧
    (applyByGroupID mods mem gid vpOk fault).2.2 =
      (applyByGroupIDSpec mods mem gid vpOk fault).2.2 :=
  ⟨applyAllMods_bool_eq mods mem vpOk fault,
   applyByGroupID_bool_eq mods mem gid vpOk fault⟩

/-- C4 counterexample: `Verify` returns `true` for a module-base-plus-offset
entry whose cached target (`0x9999`) disagrees with the recomputed address
(`0x1000 + 0x10`); and for an export-flagged entry with a cached base and
offset it returns `true` without consulting the (failing) export oracle,
although `Update`'s precedence would select the export strategy for it. -/
theorem verify_counterexample :
    verifyEntry entryC4 envC4 = true ∧
    (entryC4.ModuleAddress + entryC4.KnownOffset.getD 0) % uintptrMod ≠
      entryC4.TargetAddress ∧
    verifyEntry entryC4x envC4 = true ∧
    envC4.exportLookup = none :=
  ⟨by decide, by decide, by decide, by decide⟩

/-- C4 (amended): `Verify` first short-circuits to `true` whenever both a
module base and a known offset are cached, performing no re-derivation or
comparison; only otherwise does it re-derive — export lookup first, else
pattern scan — returning `false` when the selected lookup fails and otherwise
comparing the re-derived address against the cached `TargetAddress`. -/
theorem verifyEntry_characterization :
    (∀ (e : AddressEntry) (env : ResolveEnv),
       0 < e.ModuleAddress → 0 < e.KnownOffset.getD 0 → verifyEntry e env = true) ∧
    (∀ (e : AddressEntry) (env : ResolveEnv) (r : Nat × Nat × Nat),
       (e.ModuleAddress = 0 ∨ e.KnownOffset.getD 0 = 0) → e.IsSymbolExport = true →
       env.exportLookup = some r → 0 < r.2.1 →
       (verifyEntry e env = true ↔ r.2.1 = e.TargetAddress)) ∧
    (∀ (e : AddressEntry) (env : ResolveEnv),
       (e.ModuleAddress = 0 ∨ e.KnownOffset.getD 0 = 0) → e.IsSymbolExport = true →
       env.exportLookup = none → verifyEntry e env = false) ∧
    (∀ (e : AddressEntry) (env : ResolveEnv) (r : Nat × Nat × Nat),
       (e.ModuleAddress = 0 ∨ e.KnownOffset.getD 0 = 0) → e.IsSymbolExport = false →
       e.ScanBytes.isSome = true → env.moduleSearch = some r → 0 < r.2.1 →
       (verifyEntry e env = true ↔ r.2.1 = e.TargetAddress)) ∧
    (∀ (e : AddressEntry) (env : ResolveEnv),
       (e.ModuleAddress = 0 ∨ e.KnownOffset.getD 0 = 0) → e.IsSymbolExport = false →
       e.ScanBytes.isSome = true → env.moduleSearch = none →
       verifyEntry e env = false) := by
  refine ⟨?_, ?_, ?_, ?_, ?_⟩
  · intro e env h1 h2
    simp [verifyEntry, h1, h2]
  · intro e env r h he hl hr
    have hcond : ¬ (0 < e.ModuleAddress ∧ 0 < e.KnownOffset.getD 0) := by
      rcases h with h | h <;> simp [h]
    have hne : r.2.1 ≠ 0 := Nat.pos_iff_ne_zero.mp hr
    simp [verifyEntry, hcond, he, hl, hne]
  · intro e env h he hl
    have hcond : ¬ (0 < e.ModuleAddress ∧ 0 < e.KnownOffset.getD 0) := by
      rcases h with h | h <;> simp [h]
    simp [verifyEntry, hcond, he, hl]
  · intro e env r h he hs hl hr
    have hcond : ¬ (0 < e.ModuleAddress ∧ 0 < e.KnownOffset.getD 0) := by
      rcases h with h | h <;> simp [h]
    have hne : r.2.1 ≠ 0 := Nat.pos_iff_ne_zero.mp hr
    simp [verifyEntry, hcond, he, hs, hl, hne]
  · intro e env h he hs hl
    have hcond : ¬ (0 < e.ModuleAddress ∧ 0 < e.KnownOffset.getD 0) := by
      rcases h with h | h <;> simp [h]
    simp [verifyEntry, hcond, he, hs, hl]

/-- Witness for `verifyEntry_characterization`: the base-plus-offset
short-circuit and the export comparison at concrete inputs. -/
theorem verifyEntry_characterization_witness :
    verifyEntry entryC4w envC4 = true ∧
    verifyEntry ⟨"s", "m", true, none, none, 0, 7⟩ ⟨some (1, 7, 6), none, none⟩ = true :=
  ⟨verifyEntry_characterization.1 entryC4w envC4 (by decide) (by decide),
   (verifyEntry_characterization.2.1 ⟨"s", "m", true, none, none, 0, 7⟩
      ⟨some (1, 7, 6), none, none⟩ (1, 7, 6) (Or.inl rfl) rfl rfl (by decide)).mpr rfl⟩

/-- C9: a single `Update` call selects exactly one strategy under the fixed
precedence.  An entry with a cached module base and known offset (no export
flag, no pattern) resolves by pure arithmetic with an empty external-call
list (zero scans, zero export lookups); and when the selected strategy —
export lookup, or pattern scan — fails, the result is unresolved (`none`) and
the call list shows that no other strategy was attempted, even when the entry
also carries a usable base and offset. -/
theorem updateEntry_precedence :
    (∀ (e : AddressEntry) (env : ResolveEnv),
       e.IsSymbolExport = false → e.ScanBytes = none →
       0 < e.ModuleAddress → 0 < e.KnownOffset.getD 0 →
       updateEntry e env =
         ({ e with TargetAddress := (e.ModuleAddress + e.KnownOffset.getD 0) % uintptrMod },
          some ((e.ModuleAddress + e.KnownOffset.getD 0) % uintptrMod), [])) ∧
    (∀ (e : AddressEntry) (env : ResolveEnv),
       e.IsSymbolExport = true → env.exportLookup = none →
       (updateEntry e env).2.1 = none ∧
       (updateEntry e env).2.2 = [ResolveCall.exportLookup]) ∧
    (∀ (e : AddressEntry) (env : ResolveEnv),
       e.IsSymbolExport = false → e.ScanBytes.isSome = true → env.moduleSearch = none →
       (updateEntry e env).2.1 = none ∧
       (updateEntry e env).2.2 = [ResolveCall.patternScan]) ∧
    (∀ (e : AddressEntry) (env : ResolveEnv),
       e.IsSymbolExport = false → e.ScanBytes = none → e.ModuleAddress = 0 →
       e.ModuleName ≠ "" → 0 < e.KnownOffset.getD 0 → env.moduleHandle = none →
       (updateEntry e env).2.1 = none ∧
       (updateEntry e env).2.2 = [ResolveCall.getModuleHandle]) := by
  refine ⟨?_, ?_, ?_, ?_⟩
  · intro e env he hs h1 h2
    simp [updateEntry, he, hs, h1, h2]
  · intro e env he hl
    simp [updateEntry, he, hl]
  · intro e env he hs hl
    simp [updateEntry, he, hs, hl]
  · intro e env he hs hma hmn hoff hh
    simp [updateEntry, he, hs, hma, hmn, hoff, hh]

/-- Witness for `updateEntry_precedence`: the arithmetic-only resolution (with
every oracle facility available but unused) and the two fail-without-fallback
cases at concrete entries. -/
theorem updateEntry_precedence_witness :
    updateEntry entryC9 envC9 =
      ({ entryC9 with
          TargetAddress := (entryC9.ModuleAddress + entryC9.KnownOffset.getD 0) % uintptrMod },
       some ((entryC9.ModuleAddress + entryC9.KnownOffset.getD 0) % uintptrMod), []) ∧
    (updateEntry entryC9x envC9fail).2.1 = none ∧
    (updateEntry entryC9x envC9fail).2.2 = [ResolveCall.exportLookup] ∧
    (updateEntry entryC9p envC9fail).2.1 = none ∧
    (updateEntry entryC9p envC9fail).2.2 = [ResolveCall.patternScan] :=
  ⟨updateEntry_precedence.1 entryC9 envC9 rfl rfl (by decide) (by decide),
   (updateEntry_precedence.2.1 entryC9x envC9fail rfl rfl).1,
   (updateEntry_precedence.2.1 entryC9x envC9fail rfl rfl).2,
   (updateEntry_precedence.2.2.1 entryC9p envC9fail rfl (by decide) rfl).1,
   (updateEntry_precedence.2.2.1 entryC9p envC9fail rfl (by decide) rfl).2⟩

/-- Reading back `n` bytes yields a list of length `n`. -/
theorem readBytes_length (mem : Mem) (a n : Nat) :
    (readBytes mem a n).length = n := by
  simp [readBytes]

/-- Reading the written range back recovers exactly the written bytes. -/
theorem readBytes_writeBytes_self (mem : Mem) (a : Nat) (bs : List Nat) :
    readBytes (writeBytes mem a bs) a bs.length = bs := by
  apply List.ext_getElem
  · simp [readBytes]
  · intro i h1 h2
    simp only [readBytes, List.getElem_map, List.getElem_range]
    have hc : a ≤ a + i ∧ a + i < a + bs.length := ⟨Nat.le_add_right a i, by omega⟩
    simp only [writeBytes]
    rw [if_pos hc]
    have hi : a + i - a = i := by omega
    rw [hi]
    exact List.getD_eq_getElem bs 0 h2

/-- C1: for a patch that is not currently applied, `Apply(); Restore();` under
a valid target range (protection change succeeds, no fault, memory untouched
in between) leaves the `Size` bytes at `TargetAddress` byte-for-byte equal to
their pre-`Apply` values and ends with `IsModified = false`. -/
theorem patch_apply_restore_roundTrip (p : Patch) (mem : Mem)
    (h : p.IsModified = false) :
    readBytes
        (restorePatch (applyPatch p mem true false).1
          (applyPatch p mem true false).2.1 true false).2.1
        p.TargetAddress p.Size
      = readBytes mem p.TargetAddress p.Size ∧
    (restorePatch (applyPatch p mem true false).1
        (applyPatch p mem true false).2.1 true false).1.IsModified = false := by
  by_cases ht : p.TargetAddress = 0
  · simp [applyPatch, restorePatch, h, ht]
  · have happ : applyPatch p mem true false =
        ({ p with OriginalBytes := readBytes mem p.TargetAddress p.Size,
                  IsModified := true },
         writeBytes mem p.TargetAddress (p.PatchBytes.take p.Size), true) := by
      simp [applyPatch, h, ht]
    rw [happ]
    have hlen : (readBytes mem p.TargetAddress p.Size).length = p.Size :=
      readBytes_length mem p.TargetAddress p.Size
    have htake : (readBytes mem p.TargetAddress p.Size).take p.Size
        = readBytes mem p.TargetAddress p.Size :=
      List.take_of_length_le (le_of_eq hlen)
    constructor
    · simp only [restorePatch]
      simp only [Bool.not_true, if_false, Bool.false_eq_true, reduceIte]
      rw [htake]
      have hrw := readBytes_writeBytes_self
        (writeBytes mem p.TargetAddress (p.PatchBytes.take p.Size))
        p.TargetAddress (readBytes mem p.TargetAddress p.Size)
      rw [hlen] at hrw
      exact hrw
    · rfl

/-- Witness for `patch_apply_restore_roundTrip` on the concrete two-byte patch
and memory. -/
theorem patch_apply_restore_roundTrip_witness :
    readBytes
        (restorePatch (applyPatch patchC1 memC1 true false).1
          (applyPatch patchC1 memC1 true false).2.1 true false).2.1
        patchC1.TargetAddress patchC1.Size
      = readBytes memC1 patchC1.TargetAddress patchC1.Size ∧
    (restorePatch (applyPatch patchC1 memC1 true false).1
        (applyPatch patchC1 memC1 true false).2.1 true false).1.IsModified = false :=
  patch_apply_restore_roundTrip patchC1 memC1 rfl

/-- The key-collecting loop equals a filter-then-project over the registry. -/
theorem islmKeys_eq_filterMap (mods : List (String × Patch)) (a e : Nat) :
    islmKeys mods a e =
      (mods.filter fun km =>
        km.2.IsModified &&
        decide (a < (km.2.TargetAddress + km.2.Size) % uintptrMod) &&
        decide (km.2.TargetAddress < e)).map Prod.fst := by
  induction mods with
  | nil => rfl
  | cons km rest ih =>
    obtain ⟨k', m⟩ := km
    by_cases hm : m.IsModified <;>
      by_cases hc1 : a < (m.TargetAddress + m.Size) % uintptrMod <;>
        by_cases hc2 : m.TargetAddress < e <;>
          simp [islmKeys, hm, hc1, hc2, ih]

/-- C6: under no-overflow side conditions (positive query length, positive
entry sizes, no wrap-around in either range), `IsLocationModified(address,
length)` collects exactly the keys of the currently-`IsModified` entries whose
half-open byte range genuinely overlaps `[address, address + length)`, and its
boolean result is `true` iff at least one such entry exists. -/
theorem isLocationModified_overlap (mods : List (String × Patch)) (a l : Nat)
    (hl : 0 < l) (hal : a + l < uintptrMod)
    (hm : ∀ km ∈ mods, 0 < km.2.Size ∧
            km.2.TargetAddress + km.2.Size < uintptrMod) :
    (∀ k, k ∈ (isLocationModified mods a l []).1 ↔
       ∃ p, (k, p) ∈ mods ∧ p.IsModified = true ∧
         rangesOverlap a l p.TargetAddress p.Size) ∧
    ((isLocationModified mods a l []).2 = true ↔
       ∃ k p, (k, p) ∈ mods ∧ p.IsModified = true ∧
         rangesOverlap a l p.TargetAddress p.Size) := by
  have hEnd : (a + l) % uintptrMod = a + l := Nat.mod_eq_of_lt hal
  have hshape : (isLocationModified mods a l []).1
      = islmKeys mods a ((a + l) % uintptrMod) := rfl
  have hkey : ∀ k, k ∈ (isLocationModified mods a l []).1 ↔
      ∃ p, (k, p) ∈ mods ∧ p.IsModified = true ∧
        rangesOverlap a l p.TargetAddress p.Size := by
    intro k
    rw [hshape, hEnd, islmKeys_eq_filterMap]
    simp only [List.mem_map, List.mem_filter]
    constructor
    · rintro ⟨km, ⟨hmem, hcond⟩, rfl⟩
      simp only [Bool.and_eq_true, decide_eq_true_eq] at hcond
      obtain ⟨⟨hmod, hlt1⟩, hlt2⟩ := hcond
      have hb := hm km hmem
      have hmodEq : (km.2.TargetAddress + km.2.Size) % uintptrMod
          = km.2.TargetAddress + km.2.Size := Nat.mod_eq_of_lt hb.2
      rw [hmodEq] at hlt1
      refine ⟨km.2, hmem, hmod, ?_⟩
      rcases Nat.le_total a km.2.TargetAddress with hle | hle
      · exact ⟨km.2.TargetAddress, hle, by omega, Nat.le_refl _, by
          have := hb.1
          omega⟩
      · exact ⟨a, Nat.le_refl a, by omega, hle, by omega⟩
    · rintro ⟨p, hmem, hmod, x, hx1, hx2, hx3, hx4⟩
      have hb := hm (k, p) hmem
      have hmodEq : (p.TargetAddress + p.Size) % uintptrMod
          = p.TargetAddress + p.Size := Nat.mod_eq_of_lt hb.2
      refine ⟨(k, p), ⟨hmem, ?_⟩, rfl⟩
      show (p.IsModified &&
        decide (a < (p.TargetAddress + p.Size) % uintptrMod) &&
        decide (p.TargetAddress < a + l)) = true
      simp only [Bool.and_eq_true, decide_eq_true_eq]
      exact ⟨⟨hmod, by rw [hmodEq]; omega⟩, by omega⟩
  refine ⟨hkey, ?_⟩
  have h2 : (isLocationModified mods a l []).2
      = !((isLocationModified mods a l []).1).isEmpty := rfl
  rw [h2]
  constructor
  · intro hb
    have hne : (isLocationModified mods a l []).1 ≠ [] := by
      intro hnil
      rw [hnil] at hb
      simp at hb
    obtain ⟨k, hk⟩ := List.exists_mem_of_ne_nil _ hne
    obtain ⟨p, hp⟩ := (hkey k).mp hk
    exact ⟨k, p, hp⟩
  · rintro ⟨k, p, hp⟩
    have hk := (hkey k).mpr ⟨p, hp⟩
    have hne := List.ne_nil_of_mem hk
    cases hl' : (isLocationModified mods a l []).1 with
    | nil => exact absurd hl' hne
    | cons x xs => rfl

/-- Witness for `isLocationModified_overlap`: the modification at
`[0x1000, 0x1010)` is reported for the queries `(0x1005, 0x20)` and
`(0x0FF0, 0x20)` but not for `(0x1010, 0x10)`. -/
theorem isLocationModified_overlap_witness :
    "k1" ∈ (isLocationModified modsC6 4101 32 []).1 ∧
    (isLocationModified modsC6 4080 32 []).2 = true ∧
    (isLocationModified modsC6 4112 16 []).1 = [] := by
  refine ⟨?_, ?_, by decide⟩
  · exact ((isLocationModified_overlap modsC6 4101 32 (by decide) (by decide)
      (by decide)).1 "k1").mpr
      ⟨modC6, by decide, rfl, 4101, by decide, by decide, by decide, by decide⟩
  · exact (isLocationModified_overlap modsC6 4080 32 (by decide) (by decide)
      (by decide)).2.mpr
      ⟨"k1", modC6, by decide, rfl, 4096, by decide, by decide, by decide, by decide⟩

/-- The scan loop with `found` matches already skipped returns the
`(skip - found)`-th element of the matching offsets among the remaining
candidates. -/
theorem findSigLoop_get (buf : List Nat) (pat : List (Option Nat)) (skip : Nat)
    (hs : skip ≠ usizeMax) :
    ∀ (offsets : List Nat) (found : Nat), found ≤ skip →
      findSigLoop buf pat skip offsets found
        = (offsets.filter (sigMatchAt buf pat)).get? (skip - found) := by
  intro offsets
  induction offsets with
  | nil => intro found _; simp [findSigLoop]
  | cons i rest ih =>
    intro found hf
    simp only [findSigLoop]
    cases hmi : sigMatchAt buf pat i with
    | false =>
      simp only [Bool.false_eq_true, if_false, List.filter_cons, hmi]
      exact ih found hf
    | true =>
      simp only [if_true, List.filter_cons, hmi]
      by_cases hflt : found < skip
      · rw [if_pos ⟨hs, hflt⟩]
        have harith : skip - found = (skip - (found + 1)) + 1 := by omega
        rw [harith, List.get?_cons_succ]
        exact ih (found + 1) hflt
      · rw [if_neg (fun hc => hflt hc.2)]
        have h0 : skip - found = 0 := by omega
        rw [h0, List.get?_cons_zero]

/-- C8 (amended): `FindSignature` scans offsets in increasing order over the
inclusive range `[0, length - pattern.len()]` (the loop condition is
`i <= size - patternSize`), declares a match at an offset iff every
non-wildcard pattern byte equals the corresponding buffer byte, skips the
first `skip` matches and returns the address of the `(skip + 1)`-th match
(0-indexed), or `none` when there is no such match. -/
theorem findSignature_nth (base : Nat) (buf : List Nat) (pat : List (Option Nat))
    (skip : Nat) (hp : pat.length ≤ buf.length) (hs : skip ≠ usizeMax) :
    findSignature base buf pat skip
      = ((sigMatchOffsets buf pat).get? skip).map (fun i => base + i) ∧
    ∀ i, i ∈ sigMatchOffsets buf pat ↔
      (i + pat.length ≤ buf.length ∧
       ∀ j, j < pat.length → ∀ b, pat.getD j none = some b →
         buf.getD (i + j) 0 = b) := by
  constructor
  · unfold findSignature sigMatchOffsets
    rw [findSigLoop_get buf pat skip hs (List.range (buf.length - pat.length + 1))
      0 (Nat.zero_le skip), Nat.sub_zero]
  · intro i
    unfold sigMatchOffsets
    rw [List.mem_filter, List.mem_range]
    constructor
    · rintro ⟨hir, hmatch⟩
      refine ⟨by omega, ?_⟩
      intro j hj b hb
      have hall := (List.all_eq_true.mp hmatch) j (List.mem_range.mpr hj)
      rw [hb] at hall
      simpa using hall
    · rintro ⟨hib, hmatch⟩
      refine ⟨by omega, ?_⟩
      apply List.all_eq_true.mpr
      intro j hjr
      have hj := List.mem_range.mp hjr
      cases hpd : pat.getD j none with
      | none => simp [hpd]
      | some b =>
        simp only [hpd]
        simpa using hmatch j hj b hpd

/-- C8 counterexample: on the spec's own buffer and pattern the second match
(`skip = 1`) is found at offset `3 = length - pattern.len()`, an offset the
claimed half-open scan range `[0, length - pattern.len())` excludes — the
loop bound is inclusive, not half-open. -/
theorem findSignature_range_counterexample :
    findSignature 0 [17, 34, 51, 17, 34, 68] [some 17, some 34, none] 1 = some 3 ∧
    ¬ (3 < ([17, 34, 51, 17, 34, 68] : List Nat).length
          - ([some 17, some 34, none] : List (Option Nat)).length) :=
  ⟨by decide, by decide⟩

/-- Witness for `findSignature_nth` on the spec example buffer. -/
theorem findSignature_nth_witness :
    ([some 17, some 34, none] : List (Option Nat)).length ≤
      ([17, 34, 51, 17, 34, 68] : List Nat).length ∧
    (0 : Nat) ≠ usizeMax ∧
    findSignature 0 [17, 34, 51, 17, 34, 68] [some 17, some 34, none] 0
      = ((sigMatchOffsets [17, 34, 51, 17, 34, 68] [some 17, some 34, none]).get? 0).map
          (fun i => 0 + i) :=
  ⟨by decide, by decide,
   (findSignature_nth 0 [17, 34, 51, 17, 34, 68] [some 17, some 34, none] 0
      (by decide) (by decide)).1⟩

/-- Well-formed tokens are non-empty. -/
theorem wfToken_ne_nil {t : List Char} (h : wfToken t) : t ≠ [] := by
  rcases h with h | h | h
  · subst h; simp
  · subst h; simp
  · exact h.1

/-- Well-formed tokens contain no comma. -/
theorem wfToken_no_comma {t : List Char} (h : wfToken t) : ',' ∉ t := by
  rcases h with h | h | h
  · subst h; decide
  · subst h; decide
  · intro hc
    exact absurd (h.2.1 ',' hc) (by decide)

/-- A comma-free list is split into a single piece. -/
theorem splitOnComma_no_comma (t : List Char) (h : ',' ∉ t) :
    splitOnComma t = [t] := by
  induction t with
  | nil => rfl
  | cons c rest ih =>
    have hc : ¬ c = ',' := fun hh => h (hh ▸ List.mem_cons_self c rest)
    have hr : ',' ∉ rest := fun hh => h (List.mem_cons_of_mem c hh)
    simp only [splitOnComma]
    rw [if_neg hc, ih hr]

/-- Splitting peels off a comma-free leading piece at its delimiting comma. -/
theorem splitOnComma_append_comma (t r : List Char) (h : ',' ∉ t) :
    splitOnComma (t ++ ',' :: r) = t :: splitOnComma r := by
  induction t with
  | nil => simp [splitOnComma]
  | cons c t' ih =>
    have hc : ¬ c = ',' := fun hh => h (hh ▸ List.mem_cons_self c t')
    have ht' : ',' ∉ t' := fun hh => h (List.mem_cons_of_mem c hh)
    simp only [List.cons_append, splitOnComma, List.append_eq]
    rw [if_neg hc, ih ht']

/-- Splitting a comma-joined token list recovers the tokens. -/
theorem splitOnComma_render (ts : List (List Char)) (hne : ts ≠ [])
    (h : ∀ t ∈ ts, ',' ∉ t) : splitOnComma (renderPattern ts) = ts := by
  induction ts with
  | nil => exact absurd rfl hne
  | cons t rest ih =>
    cases rest with
    | nil => exact splitOnComma_no_comma t (h t (List.mem_cons_self _ _))
    | cons t' rest' =>
      have hren : renderPattern (t :: t' :: rest')
          = t ++ ',' :: renderPattern (t' :: rest') := rfl
      rw [hren, splitOnComma_append_comma t _ (h t (List.mem_cons_self _ _)),
        ih (by simp) (fun x hx => h x (List.mem_cons_of_mem _ hx))]

/-- The `getline` tokenizer inverts comma-joining for non-empty, comma-free
tokens. -/
theorem getlineTokens_render (ts : List (List Char))
    (h1 : ∀ t ∈ ts, t ≠ []) (h2 : ∀ t ∈ ts, ',' ∉ t) :
    getlineTokens (renderPattern ts) = ts := by
  cases ts with
  | nil => rfl
  | cons t rest =>
    have hne : renderPattern (t :: rest) ≠ [] := by
      cases rest with
      | nil => exact h1 t (List.mem_cons_self _ _)
      | cons t' rest' =>
        have hren : renderPattern (t :: t' :: rest')
            = t ++ ',' :: renderPattern (t' :: rest') := rfl
        rw [hren]
        simp
    have hsp : splitOnComma (renderPattern (t :: rest)) = t :: rest :=
      splitOnComma_render _ (by simp) h2
    obtain ⟨c, cs, hcc⟩ : ∃ c cs, renderPattern (t :: rest) = c :: cs := by
      cases hrp : renderPattern (t :: rest) with
      | nil => exact absurd hrp hne
      | cons c cs => exact ⟨c, cs, rfl⟩
    have hlast : ¬ ((t :: rest).getLast? = some ([] : List Char)) := by
      intro hl
      obtain ⟨hh, heq⟩ := List.mem_getLast?_eq_getLast (Option.mem_def.mpr hl)
      exact h1 [] (heq ▸ List.getLast_mem hh) rfl
    rw [hcc] at hsp
    simp only [getlineTokens, hcc, List.isEmpty_cons, Bool.false_eq_true,
      if_false, hsp]
    rw [if_neg hlast]

/-- A well-formed token parses without exception to its intended value. -/
theorem parseToken_wf (t : List Char) (h : wfToken t) :
    parseToken t = Except.ok (tokenValue t) := by
  rcases h with h | h | h
  · subst h; rfl
  · subst h; rfl
  · obtain ⟨hne, hhex, hbound⟩ := h
    have hq : ¬ (t = ['?'] ∨ t = ['?', '?']) := by
      rintro (rfl | rfl)
      · exact absurd (hhex '?' (by simp)) (by decide)
      · exact absurd (hhex '?' (by simp)) (by decide)
    have htw : t.takeWhile (fun c => (hexVal c).isSome) = t :=
      List.takeWhile_eq_self_iff.mpr (fun c hc => hhex c hc)
    have hie : t.isEmpty = false := by
      cases t with
      | nil => exact absurd rfl hne
      | cons c cs => rfl
    have hst : stoulHex t = some (hexFold t) := by
      simp only [stoulHex, htw, hie, Bool.false_eq_true, if_false]
      rw [if_neg (Nat.not_lt.mpr hbound)]
    simp only [parseToken, hst]
    rw [if_neg hq]
    simp only [tokenValue]
    rw [if_neg hq]

/-- Token-wise parsing of a well-formed token list succeeds with the intended
values. -/
theorem mapM_parseToken_wf (ts : List (List Char)) (h : ∀ t ∈ ts, wfToken t) :
    ts.mapM parseToken = Except.ok (ts.map tokenValue) := by
  induction ts with
  | nil => rfl
  | cons t rest ih =>
    rw [List.mapM_cons, parseToken_wf t (h t (List.mem_cons_self _ _)),
      ih (fun x hx => h x (List.mem_cons_of_mem _ hx))]
    rfl

/-- C7 (amended): `ParsePattern` splits on commas, maps `?`/`??` to a wildcard
and any other token through `std::stoul` base-16 semantics (longest hex-digit
prefix, truncated to a byte).  For every well-formed input — each token a
wildcard or a non-empty hex-digit string whose value fits in `unsigned long` —
the result is exactly the claimed byte/wildcard sequence; a token `std::stoul`
cannot start parsing raises `std::invalid_argument` and a hex run exceeding
`unsigned long` raises `std::out_of_range`, both propagating to the caller
(there is no in-band error signal), and a token with trailing junk after an
in-range hex prefix is misparsed silently, as the counterexample shows. -/
theorem parsePattern_wf (ts : List (List Char)) (h : ∀ t ∈ ts, wfToken t) :
    parsePattern (renderPattern ts) = Except.ok (ts.map tokenValue) := by
  unfold parsePattern
  rw [getlineTokens_render ts (fun t ht => wfToken_ne_nil (h t ht))
    (fun t ht => wfToken_no_comma (h t ht))]
  exact mapM_parseToken_wf ts h

/-- C7 counterexample: the malformed hex token `"4G"` is not rejected — it is
silently parsed to `0x4` — while the malformed token `"ZZ"` makes the function
raise (`std::invalid_argument` from `std::stoul`) and the all-hex but overlong
token `"100000000"` (hex value `2^32`, past `unsigned long`) makes it raise
`std::out_of_range`; both are modelled as `Except.error` and
propagate rather than producing a local error / empty-result signal. -/
theorem parsePattern_malformed_counterexample :
    parsePattern ("48,4G".toList) = Except.ok [some 72, some 4] ∧
    parsePattern ("ZZ".toList) = Except.error () ∧
    parsePattern ("100000000".toList) = Except.error () :=
  ⟨rfl, rfl, rfl⟩

/-- Witness for `parsePattern_wf`: `"48,8B,?,89"` parses to
`[0x48, 0x8B, wildcard, 0x89]`. -/
theorem parsePattern_wf_witness :
    parsePattern (renderPattern [['4', '8'], ['8', 'B'], ['?'], ['8', '9']])
      = Except.ok [some 72, some 139, none, some 137] := by
  rw [parsePattern_wf [['4', '8'], ['8', 'B'], ['?'], ['8', '9']] (by decide)]
  rfl

end ByteWeaverProof
